import Mathlib

/-
Verification of the EmaIngestDataLake procurement pipeline.

The development shallowly embeds the pipeline modules
pipeline/classify_extract.py, pipeline/ingest.py, pipeline/pdf_processor.py
and pipeline/reconcile.py.  Python strings are modelled as List Char
(converted from Lean string literals), SQLite REAL columns and Python floats
as exact rationals, SQLite tables as lists of row structures, and Python
exceptions as Option/Except.  The documents exercised here are ASCII, so the
ASCII fragments of the Python character classes are used.
-/

namespace EmaIngest

/-- Characters of the Python regex class backslash-s and of str.strip,
restricted to ASCII. -/
def isPySpace (c : Char) : Bool :=
  c = ' ' || c = '\t' || c = '\n' || c = '\r' || c = '\x0b' || c = '\x0c'

/-- Characters of the Python regex class backslash-w, restricted to ASCII. -/
def isWordCh (c : Char) : Bool :=
  ('a' ≤ c && c ≤ 'z') || ('A' ≤ c && c ≤ 'Z') || ('0' ≤ c && c ≤ '9') || c = '_'

/-- Characters of the regex class holding digits and the dot. -/
def isDigitDot (c : Char) : Bool :=
  ('0' ≤ c && c ≤ '9') || c = '.'

/-- Python str.strip: drop leading and trailing whitespace. -/
def stripCh (l : List Char) : List Char :=
  ((l.dropWhile isPySpace).reverse.dropWhile isPySpace).reverse

/-- Test that the first list is a leading segment of the second. -/
def startsWithCh : List Char → List Char → Bool
  | [], _ => true
  | _ :: _, [] => false
  | a :: as, b :: bs => a = b && startsWithCh as bs

/-- Python substring containment, the in operator on str: first argument the
needle, second the haystack. -/
def containsSub (needle : List Char) : List Char → Bool
  | [] => startsWithCh needle []
  | c :: rest => startsWithCh needle (c :: rest) || containsSub needle rest

/-- Python str.lower on the character list; Char.toLower performs exactly the
ASCII case folding used by these documents. -/
def lowerCh (l : List Char) : List Char := l.map Char.toLower

/-- Heuristic classifier from classify_extract.classify: case-insensitive
keyword groups over the full text, checked in the order GRN, INVOICE, PO,
first match winning, with fallback UNKNOWN. -/
def classify (text : String) : String :=
  let t := lowerCh text.toList
  if containsSub ("goods receipt".toList) t || containsSub ("grn".toList) t
      || containsSub ("received qty".toList) t then "GRN"
  else if containsSub ("invoice number".toList) t || containsSub ("invoice".toList) t then
    "INVOICE"
  else if containsSub ("purchase order".toList) t || containsSub ("po number".toList) t then
    "PO"
  else "UNKNOWN"

/-- Python str.splitlines with an accumulator for the current line, handling
the ASCII line breaks LF, CR and CRLF; a trailing break yields no extra empty
line. -/
def splitLinesAux : List Char → List Char → List (List Char)
  | cur, [] => if cur.isEmpty then [] else [cur.reverse]
  | cur, '\r' :: '\n' :: rest => cur.reverse :: splitLinesAux [] rest
  | cur, '\n' :: rest => cur.reverse :: splitLinesAux [] rest
  | cur, '\r' :: rest => cur.reverse :: splitLinesAux [] rest
  | cur, c :: rest => splitLinesAux (c :: cur) rest

/-- Python str.splitlines. -/
def splitLinesCh (l : List Char) : List (List Char) := splitLinesAux [] l

/-- Python ln.split with separator colon and maxsplit one, in the case where
the line holds a colon: the part before the first colon and the part after. -/
def splitFirstColon : List Char → Option (List Char × List Char)
  | [] => none
  | c :: rest =>
    if c = ':' then some ([], rest)
    else (splitFirstColon rest).map (fun p => (c :: p.1, p.2))

/-- Python dict assignment d at key k set to v: overwrite in place when the
key exists, keeping its insertion position, else append. -/
def dictInsert {α : Type} (d : List (List Char × α)) (k : List Char) (v : α) :
    List (List Char × α) :=
  match d with
  | [] => [(k, v)]
  | (k0, v0) :: rest => if k0 = k then (k0, v) :: rest else (k0, v0) :: dictInsert rest k v

/-- Python d.get k with a default value. -/
def dictGetD {α : Type} (d : List (List Char × α)) (k : List Char) (dflt : α) : α :=
  match d.find? (fun p => p.1 = k) with
  | some p => p.2
  | none => dflt

/-- Python d.get k without default, yielding None when the key is absent. -/
def dictGet? {α : Type} (d : List (List Char × α)) (k : List Char) : Option α :=
  (d.find? (fun p => p.1 = k)).map (fun p => p.2)

/-- Header map construction from _regex_extract: every stripped non-blank line
holding a colon and no pipe contributes a key-value pair, the key stripped and
lowercased, the value stripped. -/
def buildKv (lines : List (List Char)) : List (List Char × List Char) :=
  lines.foldl
    (fun kv ln =>
      if containsSub ([':']) ln && !(containsSub (['|']) ln) then
        match splitFirstColon ln with
        | some (k, v) => dictInsert kv (lowerCh (stripCh k)) (stripCh v)
        | none => kv
      else kv)
    []

/-- Value of a list of ASCII digit characters. -/
def digitsToNat (l : List Char) : Nat :=
  l.foldl (fun n c => n * 10 + (c.toNat - ('0').toNat)) 0

/-- Test that every character is an ASCII digit. -/
def allDigits (l : List Char) : Bool := l.all (fun c => '0' ≤ c && c ≤ '9')

/-- Python ln.split at the first dot, when a dot occurs. -/
def splitFirstDot : List Char → Option (List Char × List Char)
  | [] => none
  | c :: rest =>
    if c = '.' then some ([], rest)
    else (splitFirstDot rest).map (fun p => (c :: p.1, p.2))

/-- Model of the Python float conversion on the plain decimal strings these
documents produce: surrounding whitespace, an optional sign and digits with at
most one point are accepted; any other string raises ValueError, modelled as
none.  Scientific notation and special values never occur here. -/
def pyFloat (s : List Char) : Option ℚ :=
  let t := stripCh s
  let signed : ℚ × List Char :=
    match t with
    | '-' :: r => (-1, r)
    | '+' :: r => (1, r)
    | _ => (1, t)
  let sgn := signed.1
  let body := signed.2
  match splitFirstDot body with
  | none =>
    if !body.isEmpty && allDigits body then some (sgn * (digitsToNat body : ℚ)) else none
  | some (a, b) =>
    if (!a.isEmpty || !b.isEmpty) && allDigits a && allDigits b then
      some (sgn * ((digitsToNat a : ℚ) + (digitsToNat b : ℚ) / ((10 : ℚ) ^ b.length)))
    else none

/-- Python s.replace removing every comma, as applied to the total field. -/
def removeCommas (l : List Char) : List Char := l.filter (fun c => c ≠ ',')

/-- Consume a literal regex fragment case-insensitively, as compiled under
IGNORECASE, returning the remainder. -/
def dropLit : List Char → List Char → Option (List Char)
  | [], l => some l
  | _ :: _, [] => none
  | p :: ps, c :: cs => if c.toLower = p.toLower then dropLit ps cs else none

/-- Regex group of at least one non-pipe character preceded by a greedy
whitespace run: the group is the segment before the next pipe with its leading
whitespace removed; when the segment is all whitespace, backtracking leaves a
single whitespace character in the group.  Fails when the segment is empty.
Returns the group and the remainder starting at the pipe. -/
def groupNonPipe (l : List Char) : Option (List Char × List Char) :=
  let seg := l.takeWhile (fun c => c ≠ '|')
  let rest := l.dropWhile (fun c => c ≠ '|')
  let afterWs := seg.dropWhile isPySpace
  if !afterWs.isEmpty then some (afterWs, rest)
  else if !seg.isEmpty then some (seg.drop (seg.length - 1), rest)
  else none

/-- Regex group of at least one digit or dot character preceded by a greedy
whitespace run, returning the group and the remainder. -/
def groupDigits (l : List Char) : Option (List Char × List Char) :=
  let l := l.dropWhile isPySpace
  let g := l.takeWhile isDigitDot
  if g.isEmpty then none else some (g, l.dropWhile isDigitDot)

/-- Expect a pipe after a greedy whitespace run, returning the remainder. -/
def pipeThenWs (l : List Char) : Option (List Char) :=
  match l.dropWhile isPySpace with
  | '|' :: rest => some (rest.dropWhile isPySpace)
  | _ => none

/-- One match, at the head of the input, of the item pattern used by the PO
and INVOICE branches of _regex_extract: the fragments SKU, Description, Qty
and Unit Price in that order, case-insensitive, pipe separated, with groups
for the sku, the description, the quantity digits and the unit price digits.
Returns the groups and the remainder after the match. -/
def matchItemPOInv (l : List Char) :
    Option ((List Char × List Char × List Char × List Char) × List Char) := do
  let l ← dropLit ("SKU:".toList) l
  let (sku, l) ← groupNonPipe l
  let l ← pipeThenWs l
  let l ← dropLit ("Description:".toList) l
  let (desc, l) ← groupNonPipe l
  let l ← pipeThenWs l
  let l ← dropLit ("Qty:".toList) l
  let (qty, l) ← groupDigits l
  let l ← pipeThenWs l
  let l ← dropLit ("Unit Price:".toList) l
  let (up, l) ← groupDigits l
  pure ((sku, desc, qty, up), l)

/-- One match, at the head of the input, of the item pattern used by the GRN
branch of _regex_extract: the fragments SKU and Qty, case-insensitive, pipe
separated, with groups for the sku and the quantity digits. -/
def matchItemGRN (l : List Char) : Option ((List Char × List Char) × List Char) := do
  let l ← dropLit ("SKU:".toList) l
  let (sku, l) ← groupNonPipe l
  let l ← pipeThenWs l
  let l ← dropLit ("Qty:".toList) l
  let (qty, l) ← groupDigits l
  pure ((sku, qty), l)

/-- Scanner for re.findall: try a match at every position, left to right and
non-overlapping, resuming after each match.  The fuel starts at the input
length; every step consumes at least one character, so it never runs out. -/
def findAllAux {γ : Type} (matchOne : List Char → Option (γ × List Char)) :
    Nat → List Char → List γ
  | 0, _ => []
  | _ + 1, [] => []
  | fuel + 1, c :: rest =>
    match matchOne (c :: rest) with
    | some (g, rest2) => g :: findAllAux matchOne fuel rest2
    | none => findAllAux matchOne fuel rest

/-- Findall for the PO and INVOICE item pattern over one line. -/
def findItemsPOInv (l : List Char) : List (List Char × List Char × List Char × List Char) :=
  findAllAux matchItemPOInv l.length l

/-- Findall for the GRN item pattern over one line. -/
def findItemsGRN (l : List Char) : List (List Char × List Char) :=
  findAllAux matchItemGRN l.length l

/-- Item dictionary appended by the PO and INVOICE branches: sku and
description stripped, qty and unit price converted by float. -/
structure ExtractedItem where
  sku : List Char
  description : List Char
  qty : ℚ
  unit_price : ℚ
deriving DecidableEq, Repr

/-- Item dictionary appended by the GRN branch. -/
structure GrnItem where
  sku : List Char
  qty : ℚ
deriving DecidableEq, Repr

/-- Result dictionary of _regex_extract, one shape per branch; the fields kv
lookup can miss are Options, mirroring d.get returning None. -/
inductive ExtractedDoc
  | po (po_number : Option (List Char)) (vendor country currency : List Char)
      (order_date : Option (List Char)) (total_amount : ℚ) (items : List ExtractedItem)
  | invoice (invoice_number po_number : Option (List Char)) (vendor country currency : List Char)
      (invoice_date : Option (List Char)) (total_amount : ℚ) (items : List ExtractedItem)
  | grn (grn_number po_number : Option (List Char)) (vendor country : List Char)
      (grn_date : Option (List Char)) (items : List GrnItem)
  | unknown
deriving DecidableEq, Repr

/-- Items list of a result dictionary, empty for the shapes without one. -/
def docItems : ExtractedDoc → List ExtractedItem
  | .po _ _ _ _ _ _ items => items
  | .invoice _ _ _ _ _ _ _ items => items
  | _ => []

/-- Conversion of one line of findall groups into item dictionaries for the PO
and INVOICE branches; the float conversions can raise, propagated as none. -/
def itemGroupsToItems :
    List (List Char × List Char × List Char × List Char) → Option (List ExtractedItem)
  | [] => some []
  | (sku, desc, q, up) :: rest => do
    let qv ← pyFloat q
    let uv ← pyFloat up
    let others ← itemGroupsToItems rest
    pure (⟨stripCh sku, stripCh desc, qv, uv⟩ :: others)

/-- Conversion of one line of findall groups into GRN item dictionaries. -/
def grnGroupsToItems : List (List Char × List Char) → Option (List GrnItem)
  | [] => some []
  | (sku, q) :: rest => do
    let qv ← pyFloat q
    let others ← grnGroupsToItems rest
    pure (⟨stripCh sku, qv⟩ :: others)

/-- Item loop of the PO and INVOICE branches of _regex_extract: one line is
scanned only when it passes the case-sensitive substring guard of the source,
namely the lowercase fragments sku-colon and unit price both occur verbatim in
the line. -/
def itemsPOInv : List (List Char) → Option (List ExtractedItem)
  | [] => some []
  | ln :: rest => do
    let here ←
      if containsSub ("sku:".toList) ln && containsSub ("unit price".toList) ln then
        itemGroupsToItems (findItemsPOInv ln)
      else some []
    let more ← itemsPOInv rest
    pure (here ++ more)

/-- Item loop of the GRN branch, guarded by the verbatim lowercase fragments
sku-colon and qty. -/
def itemsGRN : List (List Char) → Option (List GrnItem)
  | [] => some []
  | ln :: rest => do
    let here ←
      if containsSub ("sku:".toList) ln && containsSub ("qty".toList) ln then
        grnGroupsToItems (findItemsGRN ln)
      else some []
    let more ← itemsGRN rest
    pure (here ++ more)

/-- Deterministic field extractor _regex_extract from classify_extract.py:
split into stripped non-blank lines, build the header map from colon lines
without pipes, then dispatch on the declared document type; none models a
Python exception escaping (a failing float conversion). -/
def regex_extract (text : List Char) (doc_type : List Char) : Option ExtractedDoc :=
  let lines := ((splitLinesCh text).map stripCh).filter (fun l => !l.isEmpty)
  let kv := buildKv lines
  let country := dictGetD kv ("country".toList) ("US".toList)
  let vendor := dictGetD kv ("vendor".toList) ("Unknown Vendor".toList)
  let currency := dictGetD kv ("currency".toList) ("USD".toList)
  if doc_type = "PO".toList then do
    let total ← pyFloat (removeCommas (dictGetD kv ("total".toList) ("0".toList)))
    let items ← itemsPOInv lines
    pure (.po (dictGet? kv ("po number".toList)) vendor country currency
      (dictGet? kv ("date".toList)) total items)
  else if doc_type = "INVOICE".toList then do
    let total ← pyFloat (removeCommas (dictGetD kv ("total".toList) ("0".toList)))
    let items ← itemsPOInv lines
    pure (.invoice (dictGet? kv ("invoice number".toList)) (dictGet? kv ("po number".toList))
      vendor country currency (dictGet? kv ("date".toList)) total items)
  else if doc_type = "GRN".toList then do
    let items ← itemsGRN lines
    pure (.grn (dictGet? kv ("grn number".toList)) (dictGet? kv ("po number".toList))
      vendor country (dictGet? kv ("date".toList)) items)
  else
    pure .unknown

/-- Dictionary values the field extraction layer can hand on, seen as Python
objects: a dictionary produced by _regex_extract, the fixed fallback structure
built inside _openai_extract when json.loads raises, or any other decoded
JSON value (the source never validates the decoded shape).  The fallback
structure holds only the keys type, vendor, country, currency and items and
so never coincides with the other shapes. -/
inductive PyDict
  | extracted (d : ExtractedDoc)
  | emptyDefault (doc_type : List Char)
  | foreign
deriving DecidableEq, Repr

/-- Outcome of the external call inside _openai_extract: the chat completion
request can raise, or return a response body on which json.loads either
raises (none) or yields a decoded value. -/
inductive ExternalCall
  | raises
  | responds (decoded : Option PyDict)

/-- Embedding of _openai_extract: a raising call propagates its exception
(none); a decode failure is caught and the fixed default structure returned; a
decoded value is returned without shape validation. -/
def openai_extract (call : ExternalCall) (doc_type : List Char) : Option PyDict :=
  match call with
  | .raises => none
  | .responds none => some (.emptyDefault doc_type)
  | .responds (some p) => some p

/-- Embedding of classify_extract.extract: with the external strategy enabled,
any exception out of _openai_extract falls back to the deterministic
extractor; otherwise the deterministic extractor runs directly.  The outer
none models an exception escaping the deterministic extractor itself. -/
def extract (use_openai : Bool) (call : ExternalCall) (text doc_type : List Char) :
    Option PyDict :=
  if use_openai then
    match openai_extract call doc_type with
    | some r => some r
    | none => (regex_extract text doc_type).map .extracted
  else (regex_extract text doc_type).map .extracted

/-- SQL equality on a nullable text column: NULL compares equal to nothing. -/
def sqlEq? : Option (List Char) → Option (List Char) → Bool
  | some a, some b => a = b
  | _, _ => false

/-- Row of the purchase_orders table, primary key (po_number, vendor). -/
structure PORow where
  po_number : Option (List Char)
  vendor : List Char
  country : List Char
  currency : List Char
  order_date : Option (List Char)
  total_amount : ℚ
deriving DecidableEq, Repr

/-- Row of the po_lines table, primary key (po_number, sku). -/
structure POLineRow where
  po_number : Option (List Char)
  sku : List Char
  description : List Char
  qty : ℚ
  unit_price : ℚ
deriving DecidableEq, Repr

/-- Row of the invoices table, primary key invoice_number. -/
structure InvRow where
  invoice_number : Option (List Char)
  po_number : Option (List Char)
  vendor : List Char
  country : List Char
  currency : List Char
  invoice_date : Option (List Char)
  total_amount : ℚ
deriving DecidableEq, Repr

/-- Row of the invoice_lines table, primary key (invoice_number, sku). -/
structure InvLineRow where
  invoice_number : Option (List Char)
  sku : List Char
  description : List Char
  qty : ℚ
  unit_price : ℚ
deriving DecidableEq, Repr

/-- Row of the grns table, primary key grn_number. -/
structure GRNRow where
  grn_number : Option (List Char)
  po_number : Option (List Char)
  vendor : List Char
  country : List Char
  grn_date : Option (List Char)
deriving DecidableEq, Repr

/-- Row of the grn_lines table, primary key (grn_number, sku). -/
structure GRNLineRow where
  grn_number : Option (List Char)
  sku : List Char
  qty : ℚ
deriving DecidableEq, Repr

/-- The typed tables of db.py, each a list of rows in insertion order. -/
structure TypedDB where
  purchase_orders : List PORow
  po_lines : List POLineRow
  invoices : List InvRow
  invoice_lines : List InvLineRow
  grns : List GRNRow
  grn_lines : List GRNLineRow
deriving DecidableEq, Repr

/-- The empty typed database. -/
def TypedDB.empty : TypedDB := ⟨[], [], [], [], [], []⟩

/-- SQLite INSERT OR IGNORE into purchase_orders: a row whose primary key
conflicts with an existing row is dropped; NULL key columns never conflict. -/
def insertIgnorePO (t : List PORow) (r : PORow) : List PORow :=
  if t.any (fun x => sqlEq? x.po_number r.po_number && x.vendor = r.vendor) then t
  else t ++ [r]

/-- SQLite INSERT OR REPLACE into po_lines: conflicting rows are deleted and
the new row appended. -/
def insertReplacePOLine (t : List POLineRow) (r : POLineRow) : List POLineRow :=
  (t.filter (fun x => !(sqlEq? x.po_number r.po_number && x.sku = r.sku))) ++ [r]

/-- SQLite INSERT OR REPLACE into invoices. -/
def insertReplaceInv (t : List InvRow) (r : InvRow) : List InvRow :=
  (t.filter (fun x => !(sqlEq? x.invoice_number r.invoice_number))) ++ [r]

/-- SQLite INSERT OR REPLACE into invoice_lines. -/
def insertReplaceInvLine (t : List InvLineRow) (r : InvLineRow) : List InvLineRow :=
  (t.filter (fun x => !(sqlEq? x.invoice_number r.invoice_number && x.sku = r.sku))) ++ [r]

/-- SQLite INSERT OR IGNORE into grns. -/
def insertIgnoreGRN (t : List GRNRow) (r : GRNRow) : List GRNRow :=
  if t.any (fun x => sqlEq? x.grn_number r.grn_number) then t else t ++ [r]

/-- SQLite INSERT OR REPLACE into grn_lines. -/
def insertReplaceGRNLine (t : List GRNLineRow) (r : GRNLineRow) : List GRNLineRow :=
  (t.filter (fun x => !(sqlEq? x.grn_number r.grn_number && x.sku = r.sku))) ++ [r]

/-- Embedding of ingest._persist_structured: fan a parsed document out into
the typed tables, headers via INSERT OR IGNORE for PO and GRN and INSERT OR
REPLACE for invoices, every line table via INSERT OR REPLACE. -/
def persist_structured (db : TypedDB) (doc : ExtractedDoc) : TypedDB :=
  match doc with
  | .po pn vendor country currency od total items =>
    { db with
      purchase_orders := insertIgnorePO db.purchase_orders ⟨pn, vendor, country, currency, od, total⟩
      po_lines := items.foldl
        (fun t it => insertReplacePOLine t ⟨pn, it.sku, it.description, it.qty, it.unit_price⟩)
        db.po_lines }
  | .invoice inv pn vendor country currency idate total items =>
    { db with
      invoices := insertReplaceInv db.invoices ⟨inv, pn, vendor, country, currency, idate, total⟩
      invoice_lines := items.foldl
        (fun t it => insertReplaceInvLine t ⟨inv, it.sku, it.description, it.qty, it.unit_price⟩)
        db.invoice_lines }
  | .grn gn pn vendor country gdate items =>
    { db with
      grns := insertIgnoreGRN db.grns ⟨gn, pn, vendor, country, gdate⟩
      grn_lines := items.foldl
        (fun t it => insertReplaceGRNLine t ⟨gn, it.sku, it.qty⟩)
        db.grn_lines }
  | .unknown => db

/-- Lookup of the purchase_orders row with the given key. -/
def lookupPO (db : TypedDB) (pn : Option (List Char)) (vendor : List Char) : Option PORow :=
  db.purchase_orders.find? (fun x => sqlEq? x.po_number pn && x.vendor = vendor)

/-- Lookup of the po_lines row with the given key. -/
def lookupPOLine (db : TypedDB) (pn : Option (List Char)) (sku : List Char) : Option POLineRow :=
  db.po_lines.find? (fun x => sqlEq? x.po_number pn && x.sku = sku)

/-- Lookup of the invoices row with the given key. -/
def lookupInv (db : TypedDB) (inv : Option (List Char)) : Option InvRow :=
  db.invoices.find? (fun x => sqlEq? x.invoice_number inv)

/-- Lookup of the invoice_lines row with the given key. -/
def lookupInvLine (db : TypedDB) (inv : Option (List Char)) (sku : List Char) :
    Option InvLineRow :=
  db.invoice_lines.find? (fun x => sqlEq? x.invoice_number inv && x.sku = sku)

/-- Lookup of the grn_lines row with the given key. -/
def lookupGRNLine (db : TypedDB) (gn : Option (List Char)) (sku : List Char) :
    Option GRNLineRow :=
  db.grn_lines.find? (fun x => sqlEq? x.grn_number gn && x.sku = sku)

/-- Suffix of the final path component as pathlib computes it: the last dot
segment of the file name, empty when the name has no dot after its first
character. -/
def pathSuffix (path : List Char) : List Char :=
  let revName := path.reverse.takeWhile (fun c => c ≠ '/')
  let revAfter := revName.takeWhile (fun c => c ≠ '.')
  if revAfter.length + 1 < revName.length then '.' :: revAfter.reverse
  else []

/-- File type detection from pdf_processor.get_file_type: the lowercased
extension of the path. -/
def get_file_type (path : List Char) : List Char := lowerCh (pathSuffix path)

/-- Supported extension set from pdf_processor.is_supported_file_type. -/
def supported_types : List (List Char) :=
  [".txt".toList, ".pdf".toList, ".jpg".toList, ".jpeg".toList, ".png".toList,
   ".tiff".toList, ".tif".toList, ".bmp".toList]

/-- Embedding of pdf_processor.is_supported_file_type. -/
def is_supported_file_type (path : List Char) : Bool :=
  supported_types.any (fun e => e = get_file_type path)

/-- Content hash from classify_extract.file_hash: the sha256 digest of the
file bytes is modelled as an injective function of the bytes, namely the
bytes themselves (the model of a collision-free hash). -/
def file_hash (raw : List Char) : List Char := raw

/-- One file presented to ingest_folder: its path, its raw bytes, the text
read_document_content yields for it, and whether that read succeeds.  The
readOk flag models the file reading and OCR layer, which is external input
and output bound; the remainder of the per-file chain is embedded. -/
structure FileDesc where
  path : List Char
  raw : List Char
  text : String
  readOk : Bool

/-- Row of the documents table as far as the claims reach: its unique path,
hash, classified type and the vendor and country taken from the payload. -/
structure DocRow where
  path : List Char
  hash : List Char
  doc_type : List Char
  country : List Char
  vendor : List Char
deriving DecidableEq, Repr

/-- Database state seen by ingest_folder: the documents table plus the typed
tables filled by _persist_structured. -/
structure IngestDB where
  documents : List DocRow
  typed : TypedDB
deriving DecidableEq, Repr

/-- The empty ingest database. -/
def IngestDB.empty : IngestDB := ⟨[], TypedDB.empty⟩

/-- Counter triple returned by ingest_folder. -/
structure Counts where
  ingested : Nat
  skipped : Nat
  errors : Nat
deriving DecidableEq, Repr

/-- Vendor key of a parsed payload, parsed.get vendor with default, which the
UNKNOWN shape misses. -/
def docVendor : ExtractedDoc → List Char
  | .po _ v _ _ _ _ _ => v
  | .invoice _ _ v _ _ _ _ _ => v
  | .grn _ _ v _ _ _ => v
  | .unknown => "Unknown Vendor".toList

/-- Country key of a parsed payload, parsed.get country with default. -/
def docCountry : ExtractedDoc → List Char
  | .po _ _ c _ _ _ _ => c
  | .invoice _ _ _ c _ _ _ _ => c
  | .grn _ _ _ c _ _ => c
  | .unknown => "US".toList

/-- Per-file body of ingest_folder: an unsupported extension is skipped; then
the document is read (a failure counts as an error); then a row whose path or
hash already exists causes a skip; otherwise the text is classified and
extracted with the deterministic strategy (a raising extraction counts as an
error) and the document plus its structured payload are persisted.  The
returned counter holds the increments for this file. -/
def ingest_one (db : IngestDB) (f : FileDesc) : IngestDB × Counts :=
  if !(is_supported_file_type f.path) then (db, ⟨0, 1, 0⟩)
  else if !f.readOk then (db, ⟨0, 0, 1⟩)
  else
    let h := file_hash f.raw
    if db.documents.any (fun d => d.path = f.path || d.hash = h) then (db, ⟨0, 1, 0⟩)
    else
      let dt := classify f.text
      match regex_extract f.text.toList dt.toList with
      | none => (db, ⟨0, 0, 1⟩)
      | some parsed =>
        ({ documents :=
            db.documents ++ [⟨f.path, h, dt.toList, docCountry parsed, docVendor parsed⟩],
           typed := persist_structured db.typed parsed }, ⟨1, 0, 0⟩)

/-- Embedding of ingest.ingest_folder: fold over the folder files in order,
accumulating the ingested, skipped and error counters; a per-file failure
never aborts the batch. -/
def ingest_folder (db : IngestDB) : List FileDesc → IngestDB × Counts
  | [] => (db, ⟨0, 0, 0⟩)
  | f :: rest =>
    let r := ingest_one db f
    let rr := ingest_folder r.1 rest
    (rr.1, ⟨r.2.ingested + rr.2.ingested, r.2.skipped + rr.2.skipped, r.2.errors + rr.2.errors⟩)

/-- First normalization step of preprocess_pdf_text, the substitution sending
every whitespace run to a single space; the flag records whether the scanner
stands inside a run. -/
def collapseWsAux : Bool → List Char → List Char
  | _, [] => []
  | inRun, c :: rest =>
    if isPySpace c then
      if inRun then collapseWsAux true rest else ' ' :: collapseWsAux true rest
    else c :: collapseWsAux false rest

/-- Whitespace run collapsing, the first substitution of preprocess_pdf_text. -/
def collapseWs (l : List Char) : List Char := collapseWsAux false l

/-- Second substitution of preprocess_pdf_text: a word character, a hyphen, a
whitespace run and a word character are rewritten to the two word characters,
scanning left to right and resuming after each match.  The fuel starts at the
input length; every step consumes at least one character, so it never runs
out. -/
def dehyphAux : Nat → List Char → List Char
  | 0, l => l
  | _ + 1, [] => []
  | fuel + 1, a :: rest =>
    if isWordCh a then
      match rest with
      | b :: rest2 =>
        if b = '-' then
          let sp := rest2.takeWhile isPySpace
          let rem := rest2.dropWhile isPySpace
          if !sp.isEmpty then
            match rem with
            | w :: rest3 =>
              if isWordCh w then a :: w :: dehyphAux fuel rest3 else a :: dehyphAux fuel rest
            | [] => a :: dehyphAux fuel rest
          else a :: dehyphAux fuel rest
        else a :: dehyphAux fuel rest
      | [] => a :: dehyphAux fuel rest
    else a :: dehyphAux fuel rest

/-- Hyphen-broken word rejoining. -/
def dehyph (l : List Char) : List Char := dehyphAux l.length l

/-- Match helper for the blank line substitution: given the characters after a
newline, when the following whitespace run holds another newline, return the
remainder after the last newline of that run (the greedy match), else none. -/
def blankRunRest (rest : List Char) : Option (List Char) :=
  let run := rest.takeWhile isPySpace
  let after := rest.dropWhile isPySpace
  if run.any (fun c => c = '\n') then
    some ((run.reverse.takeWhile (fun c => c ≠ '\n')).reverse ++ after)
  else none

/-- Third substitution of preprocess_pdf_text: a newline, a whitespace run and
a newline are rewritten to a single newline.  Fuel as in dehyphAux. -/
def collapseBlankAux : Nat → List Char → List Char
  | 0, l => l
  | _ + 1, [] => []
  | fuel + 1, c :: rest =>
    if c = '\n' then
      match blankRunRest rest with
      | some rest2 => '\n' :: collapseBlankAux fuel rest2
      | none => c :: collapseBlankAux fuel rest
    else c :: collapseBlankAux fuel rest

/-- Blank line run collapsing. -/
def collapseBlank (l : List Char) : List Char := collapseBlankAux l.length l

/-- Fourth substitution of preprocess_pdf_text: a colon squeezed between two
word characters receives a space after it, resuming after each match.  Fuel
as in dehyphAux. -/
def colonSpaceAux : Nat → List Char → List Char
  | 0, l => l
  | _ + 1, [] => []
  | fuel + 1, a :: rest =>
    if isWordCh a then
      match rest with
      | b :: w :: rest2 =>
        if b = ':' then
          if isWordCh w then a :: ':' :: ' ' :: w :: colonSpaceAux fuel rest2
          else a :: colonSpaceAux fuel rest
        else a :: colonSpaceAux fuel rest
      | _ => a :: colonSpaceAux fuel rest
    else a :: colonSpaceAux fuel rest

/-- Colon spacing normalization. -/
def colonSpace (l : List Char) : List Char := colonSpaceAux l.length l

/-- Fifth substitution of preprocess_pdf_text: a pipe and the following
whitespace run are rewritten to a pipe with single surrounding spaces.  Fuel
as in dehyphAux. -/
def pipeSpaceAux : Nat → List Char → List Char
  | 0, l => l
  | _ + 1, [] => []
  | fuel + 1, c :: rest =>
    if c = '|' then ' ' :: '|' :: ' ' :: pipeSpaceAux fuel (rest.dropWhile isPySpace)
    else c :: pipeSpaceAux fuel rest

/-- Pipe separator normalization. -/
def pipeSpace (l : List Char) : List Char := pipeSpaceAux l.length l

/-- Embedding of pdf_processor.preprocess_pdf_text: the empty text is returned
unchanged, any other text runs through whitespace collapsing, hyphen
rejoining, blank line collapsing, colon spacing, pipe normalization and a
final strip. -/
def preprocess_pdf_text (s : String) : String :=
  if s.toList.isEmpty then ""
  else ⟨stripCh (pipeSpace (colonSpace (collapseBlank (dehyph (collapseWs s.toList)))))⟩

/-- File kinds dispatched by read_document_content. -/
inductive SrcKind
  | txt
  | pdf
  | image
  | other
deriving DecidableEq

/-- Embedding of pdf_processor.read_document_content: plain text is returned
verbatim, PDF and image text runs through preprocess_pdf_text, anything else
raises UnsupportedFileTypeError.  The string argument is the raw text the
reader or OCR stage produced for the file. -/
def read_document_content : SrcKind → String → Except (List Char) String
  | .txt, s => .ok s
  | .pdf, s => .ok (preprocess_pdf_text s)
  | .image, s => .ok (preprocess_pdf_text s)
  | .other, _ => .error ("UnsupportedFileType".toList)

/-- Mutable state of the per-invoice loop in reconcile: the current status
string and the running quantity and price variances. -/
structure RecState where
  status : List Char
  qty_var : ℚ
  price_var_pct : ℚ
deriving DecidableEq, Repr

/-- Row of the reconciliation table persisted by _upsert. -/
structure RecRow where
  invoice_number : Option (List Char)
  po_number : Option (List Char)
  vendor : List Char
  status : List Char
  qty_var : ℚ
  price_var_pct : ℚ
  comments : List Char
deriving DecidableEq, Repr

/-- Invoice line dictionary keyed by sku built by reconcile, from the
invoice_lines rows of the given invoice in table order. -/
def invLineDict (db : TypedDB) (inv_no : Option (List Char)) :
    List (List Char × (ℚ × ℚ)) :=
  (db.invoice_lines.filter (fun r => sqlEq? r.invoice_number inv_no)).foldl
    (fun d r => dictInsert d r.sku (r.qty, r.unit_price)) []

/-- PO line dictionary keyed by sku built by reconcile. -/
def poLineDict (db : TypedDB) (po_no : Option (List Char)) :
    List (List Char × (ℚ × ℚ)) :=
  (db.po_lines.filter (fun r => sqlEq? r.po_number po_no)).foldl
    (fun d r => dictInsert d r.sku (r.qty, r.unit_price)) []

/-- Aggregated received quantity per sku: the GROUP BY sum over grn_lines
joined with grns on grn_number and restricted to the given po_number,
retrieved with default zero; an absent group and an empty sum coincide. -/
def grn_qty_get (db : TypedDB) (po_no : Option (List Char)) (sku : List Char) : ℚ :=
  (db.grn_lines.filter (fun gl =>
      gl.sku = sku
        && db.grns.any (fun g =>
          sqlEq? g.grn_number gl.grn_number && sqlEq? g.po_number po_no))).foldl
    (fun a gl => a + gl.qty) 0

/-- GRN existence check of reconcile: a grns row with the given po_number and
vendor. -/
def has_grn (db : TypedDB) (po_no : Option (List Char)) (vendor : List Char) : Bool :=
  db.grns.any (fun g => sqlEq? g.po_number po_no && g.vendor = vendor)

/-- Body of the per-line loop of reconcile: an absolute quantity gap beyond
the tolerance forces status QTY_VAR unconditionally; a relative price gap
beyond the tolerance sets PRICE_VAR only while the status is still MATCH and
the PO price is nonzero.  The PO quantity from the lookup default is unused,
as in the source. -/
def reconcile_line (db : TypedDB) (po_no : Option (List Char))
    (po_map : List (List Char × (ℚ × ℚ))) (qty_tol price_tol : ℚ)
    (st : RecState) (e : List Char × (ℚ × ℚ)) : RecState :=
  let sku := e.1
  let iqty := e.2.1
  let iprice := e.2.2
  let pprice := (dictGetD po_map sku (0, iprice)).2
  let rqty := grn_qty_get db po_no sku
  let st1 :=
    if |iqty - rqty| > qty_tol then
      { st with status := "QTY_VAR".toList, qty_var := iqty - rqty }
    else st
  if pprice ≠ 0 then
    let pv := (iprice - pprice) / pprice * 100
    if |pv| > price_tol ∧ st1.status = "MATCH".toList then
      { st1 with status := "PRICE_VAR".toList, price_var_pct := pv }
    else st1
  else st1

/-- Duplicate invoice set of reconcile: invoice numbers whose (vendor, total
amount, invoice date) group holds more than one invoices row; the window
partition groups NULL dates together, as Option equality does. -/
def computeDups (invs : List InvRow) : List (Option (List Char)) :=
  (invs.filter (fun i =>
      1 < invs.countP (fun j =>
        j.vendor = i.vendor && j.total_amount = i.total_amount
          && j.invoice_date = i.invoice_date))).map
    (fun i => i.invoice_number)

/-- Per-invoice body of reconcile, mirroring the source step by step: start at
MATCH, flag duplicates, stop terminally on missing invoice data or on a
missing PO, flag a missing GRN only while still MATCH, run the per-line
quantity and price checks, and finally the overbill check gated on a nonzero
PO total, a relative excess beyond the price tolerance and a status still
MATCH.  The returned row is the record _upsert persists for this invoice. -/
def reconcile_invoice (db : TypedDB) (dups : List (Option (List Char)))
    (qty_tol price_tol : ℚ) (inv_no po_no : Option (List Char)) (vendor : List Char) :
    RecRow :=
  let dup := inv_no ∈ dups
  let status0 : List Char := if dup then "DUP_INVOICE".toList else "MATCH".toList
  let comments0 : List Char := if dup then "Duplicate invoice".toList else []
  match db.invoices.find? (fun r => sqlEq? r.invoice_number inv_no) with
  | none =>
    ⟨inv_no, po_no, vendor, "MISSING_INVOICE_DATA".toList, 0, 0,
      "Invoice data missing from invoices table".toList⟩
  | some invRow =>
    match db.purchase_orders.find? (fun p => sqlEq? p.po_number po_no && p.vendor = vendor) with
    | none => ⟨inv_no, po_no, vendor, "NO_PO".toList, 0, 0, "No matching PO".toList⟩
    | some poRow =>
      let sc1 : List Char × List Char :=
        if !(has_grn db po_no vendor) && status0 = "MATCH".toList then
          ("MISSING_GRN".toList, "No goods receipt for PO".toList)
        else (status0, comments0)
      let po_map := poLineDict db po_no
      let stF := (invLineDict db inv_no).foldl
        (reconcile_line db po_no po_map qty_tol price_tol) ⟨sc1.1, 0, 0⟩
      if poRow.total_amount ≠ 0
          ∧ (invRow.total_amount - poRow.total_amount) / poRow.total_amount * 100 > price_tol
          ∧ stF.status = "MATCH".toList then
        ⟨inv_no, po_no, vendor, "OVERBILL".toList, stF.qty_var, stF.price_var_pct,
          "Invoice total exceeds PO total".toList⟩
      else ⟨inv_no, po_no, vendor, stF.status, stF.qty_var, stF.price_var_pct, sc1.2⟩

/-- Embedding of reconcile.reconcile (source defaults: quantity tolerance one
unit, price tolerance two percent): recompute the duplicate set, then produce
one persisted record per invoices row, in table order. -/
def reconcile (db : TypedDB) (qty_tol price_tol : ℚ) : List RecRow :=
  let dups := computeDups db.invoices
  db.invoices.map
    (fun i => reconcile_invoice db dups qty_tol price_tol i.invoice_number i.po_number i.vendor)

/-- Shorthand turning a string literal into its character list. -/
def chs (s : String) : List Char := s.toList

/-- Shorthand turning a string literal into a present nullable column value. -/
def ochs (s : String) : Option (List Char) := some s.toList

/-- Purchase order header used by the concrete reconciliation scenarios:
PO-1 for vendor V with declared total 100. -/
def scenPO : PORow := ⟨ochs "PO-1", chs "V", chs "US", chs "USD", ochs "2024-01-01", 100⟩

/-- PO line for sku X, quantity 10 at unit price 5. -/
def scenPOLine : POLineRow := ⟨ochs "PO-1", chs "X", chs "widget", 10, 5⟩

/-- Goods receipt header GRN-1 against PO-1. -/
def scenGRN : GRNRow := ⟨ochs "GRN-1", ochs "PO-1", chs "V", chs "US", ochs "2024-01-15"⟩

/-- GRN line receiving quantity 10 of sku X. -/
def scenGRNLine : GRNLineRow := ⟨ochs "GRN-1", chs "X", 10⟩

/-- Invoice INV-A with total 102.01, one hundredth above the two percent
boundary over the PO total 100. -/
def overInv : InvRow :=
  ⟨ochs "INV-A", ochs "PO-1", chs "V", chs "US", chs "USD", ochs "2024-02-01", 10201 / 100⟩

/-- Invoice INV-B with total 102.00, exactly two percent over the PO total. -/
def exactInv : InvRow :=
  ⟨ochs "INV-B", ochs "PO-1", chs "V", chs "US", chs "USD", ochs "2024-02-02", 102⟩

/-- Invoice line matching the PO and GRN exactly, for INV-A. -/
def overInvLine : InvLineRow := ⟨ochs "INV-A", chs "X", chs "widget", 10, 5⟩

/-- Invoice line matching the PO and GRN exactly, for INV-B. -/
def exactInvLine : InvLineRow := ⟨ochs "INV-B", chs "X", chs "widget", 10, 5⟩

/-- Database holding the boundary invoice INV-A over PO-1. -/
def overDB : TypedDB := ⟨[scenPO], [scenPOLine], [overInv], [overInvLine], [scenGRN], [scenGRNLine]⟩

/-- Database holding the boundary invoice INV-B over PO-1. -/
def exactDB : TypedDB :=
  ⟨[scenPO], [scenPOLine], [exactInv], [exactInvLine], [scenGRN], [scenGRNLine]⟩

/-- Duplicate invoice INV-C: same vendor, total and date as INV-D. -/
def dupInvC : InvRow :=
  ⟨ochs "INV-C", ochs "PO-1", chs "V", chs "US", chs "USD", ochs "2024-02-01", 100⟩

/-- Duplicate invoice INV-D. -/
def dupInvD : InvRow :=
  ⟨ochs "INV-D", ochs "PO-1", chs "V", chs "US", chs "USD", ochs "2024-02-01", 100⟩

/-- Invoice line of INV-C billing quantity 20 where the GRN received 10. -/
def dupInvCLine : InvLineRow := ⟨ochs "INV-C", chs "X", chs "widget", 20, 5⟩

/-- Invoice line of INV-D matching the GRN. -/
def dupInvDLine : InvLineRow := ⟨ochs "INV-D", chs "X", chs "widget", 10, 5⟩

/-- Database holding the duplicate pair INV-C and INV-D against PO-1 and
GRN-1, INV-C with a quantity overbilling beyond the tolerance. -/
def dupQtyDB : TypedDB :=
  ⟨[scenPO], [scenPOLine], [dupInvC, dupInvD], [dupInvCLine, dupInvDLine], [scenGRN],
    [scenGRNLine]⟩

/-- Database holding the duplicate pair INV-C and INV-D with an empty
purchase_orders table. -/
def noPoDB : TypedDB := ⟨[], [], [dupInvC, dupInvD], [], [], []⟩

/-- First PO document persisted for key (P1, V): sku S with quantity 1 at
price 5. -/
def poDocFirst : ExtractedDoc :=
  .po (ochs "P1") (chs "V") (chs "US") (chs "USD") (ochs "2024-01-01") 5
    [⟨chs "S", chs "first", 1, 5⟩]

/-- Second PO document persisted for the same key (P1, V): the same sku S
with quantity 2 at price 6. -/
def poDocSecond : ExtractedDoc :=
  .po (ochs "P1") (chs "V") (chs "US") (chs "USD") (ochs "2024-02-02") 6
    [⟨chs "S", chs "second", 2, 6⟩]

/-- The sample item line of the specification. -/
def sampleItemLine : String :=
  " - SKU: ABC-123 | Description: Sample Component | Qty: 10 | Unit Price: 25.50"

/-- A supported text file whose ingestion chain succeeds. -/
def invoiceFile : FileDesc :=
  ⟨chs "docs/inv1.txt", chs "Invoice Number: I1", "Invoice Number: I1", true⟩

/-- A file with an unsupported extension. -/
def wordFile : FileDesc := ⟨chs "a.docx", chs "z", "z", true⟩

/-- A supported file whose read fails. -/
def brokenFile : FileDesc := ⟨chs "b.txt", chs "y", "y", false⟩

/-- A supported file whose extraction raises: the total field is not a valid
float literal. -/
def badTotalFile : FileDesc :=
  ⟨chs "c.txt", chs "Invoice Number: I2 Total 12.3.4", "Invoice Number: I2\nTotal: 12.3.4", true⟩

/-- A GRN document for key G1. -/
def grnDocFirst : ExtractedDoc :=
  .grn (ochs "G1") (ochs "P1") (chs "V") (chs "US") (ochs "2024-01-10") [⟨chs "S", 4⟩]

/-- An invoice document for key I1. -/
def invDocFirst : ExtractedDoc :=
  .invoice (ochs "I1") (ochs "P1") (chs "V") (chs "US") (chs "USD") (ochs "2024-02-01") 5
    [⟨chs "S", chs "line", 1, 5⟩]

/-- The payload the deterministic extractor produces for invoiceFile. -/
def invoiceFileDoc : ExtractedDoc :=
  .invoice (ochs "I1") none (chs "Unknown Vendor") (chs "US") (chs "USD") none 0 []

attribute [local semireducible] Rat.add Rat.mul Rat.inv Rat.sub

lemma find?_filter_not_self {α : Type} (p : α → Bool) (l : List α) :
    (l.filter (fun x => !(p x))).find? p = none := by
  induction l with
  | nil => rfl
  | cons a t ih =>
    by_cases h : p a
    · simp [List.filter_cons, h, ih]
    · simp [List.filter_cons, h, List.find?_cons, ih]

lemma mem_of_mem_dropWhileCh {α : Type} (p : α → Bool) (l : List α) (c : α)
    (h : c ∈ l.dropWhile p) : c ∈ l := by
  induction l with
  | nil => simp at h
  | cons a t ih =>
    by_cases pa : p a
    · simp only [List.dropWhile_cons, pa, if_true] at h
      exact List.mem_cons_of_mem _ (ih h)
    · simpa [List.dropWhile_cons, pa] using h

lemma mem_of_mem_takeWhileCh {α : Type} (p : α → Bool) (l : List α) (c : α)
    (h : c ∈ l.takeWhile p) : c ∈ l := by
  induction l with
  | nil => simp at h
  | cons a t ih =>
    by_cases pa : p a
    · simp only [List.takeWhile_cons, pa, if_true, List.mem_cons] at h
      rcases h with h | h
      · exact h ▸ List.mem_cons_self _ _
      · exact List.mem_cons_of_mem _ (ih h)
    · simp [List.takeWhile_cons, pa] at h

/-- Claim C3: the deterministic extractor applied under PO or INVOICE rules to
the sample item line yields no item at all, because its line guard tests the
lowercase fragments sku-colon and unit price case-sensitively against the
unlowered line; the item regex machinery itself, reached directly, extracts
exactly the item the specification states, so only the guard blocks it. -/
theorem sample_item_line_not_extracted :
    (regex_extract sampleItemLine.toList ("INVOICE".toList)).map docItems = some []
  ∧ (regex_extract sampleItemLine.toList ("PO".toList)).map docItems = some []
  ∧ itemGroupsToItems (findItemsPOInv (stripCh sampleItemLine.toList))
      = some [⟨"ABC-123".toList, "Sample Component".toList, 10, 51 / 2⟩] := by
  refine ⟨by decide, by decide, by decide⟩

/-- Claim C4 counterexample: on a response whose body fails to parse as JSON,
extraction does not fall back to the deterministic extractor; it returns the
fixed default structure instead, which differs from the deterministic result
for this text. -/
theorem json_parse_failure_not_regex_fallback :
    extract true (.responds none) ("Vendor: Acme".toList) ("INVOICE".toList)
      ≠ (regex_extract ("Vendor: Acme".toList) ("INVOICE".toList)).map PyDict.extracted := by
  decide

/-- Claim C4 amended: when the external call raises, extraction equals the
deterministic extractor on the same text and kind; when the call succeeds but
its body fails to parse as JSON, the result is the fixed default structure;
a body that parses is returned unvalidated. -/
theorem extract_external_failure_semantics :
    (∀ text doc_type : List Char,
      extract true .raises text doc_type = (regex_extract text doc_type).map PyDict.extracted)
  ∧ (∀ text doc_type : List Char,
      extract true (.responds none) text doc_type = some (.emptyDefault doc_type))
  ∧ (∀ (p : PyDict) (text doc_type : List Char),
      extract true (.responds (some p)) text doc_type = some p) :=
  ⟨fun _ _ => rfl, fun _ _ => rfl, fun _ _ _ => rfl⟩

/-- Claim C6: with PO total 100 and price tolerance 2, the invoice totalling
102.01 with all lines within tolerance reconciles to OVERBILL, while the
invoice totalling exactly 102.00 reconciles to MATCH, the comparison being a
strict greater-than on the percentage excess. -/
theorem overbill_strict_boundary :
    (reconcile overDB 1 2).map RecRow.status = ["OVERBILL".toList]
  ∧ (reconcile exactDB 1 2).map RecRow.status = ["MATCH".toList] := by
  refine ⟨by decide, by decide⟩

/-- Claim C2 counterexample: persisting a second PO document with the key
(P1, V) is not a no-op; its line insert replaces the stored po_lines row for
(P1, S), leaving quantity 2 where the first write stored quantity 1. -/
theorem po_line_second_insert_not_noop :
    persist_structured (persist_structured TypedDB.empty poDocFirst) poDocSecond
        ≠ persist_structured TypedDB.empty poDocFirst
  ∧ lookupPOLine (persist_structured (persist_structured TypedDB.empty poDocFirst) poDocSecond)
        (ochs "P1") (chs "S")
      = some ⟨ochs "P1", chs "S", chs "second", 2, 6⟩ := by
  refine ⟨by decide, by decide⟩

/-- Claim C5: an invoice whose (po_number, vendor) pair matches no
purchase_orders row reconciles terminally to NO_PO with the fixed comment,
whatever the duplicate set and the GRN, line and total data hold; the second
part shows the record so computed is among the records the reconciliation
pass persists. -/
theorem no_po_terminal :
    (∀ (db : TypedDB) (dups : List (Option (List Char))) (qty_tol price_tol : ℚ)
        (inv_no po_no : Option (List Char)) (vendor : List Char),
      (db.invoices.find? (fun r => sqlEq? r.invoice_number inv_no)).isSome = true →
      db.purchase_orders.find? (fun p => sqlEq? p.po_number po_no && p.vendor = vendor) = none →
      reconcile_invoice db dups qty_tol price_tol inv_no po_no vendor
        = ⟨inv_no, po_no, vendor, "NO_PO".toList, 0, 0, "No matching PO".toList⟩)
  ∧ (∀ (db : TypedDB) (qty_tol price_tol : ℚ) (i : InvRow), i ∈ db.invoices →
      (db.invoices.find? (fun r => sqlEq? r.invoice_number i.invoice_number)).isSome = true →
      db.purchase_orders.find?
          (fun p => sqlEq? p.po_number i.po_number && p.vendor = i.vendor) = none →
      (⟨i.invoice_number, i.po_number, i.vendor, "NO_PO".toList, 0, 0,
          "No matching PO".toList⟩ : RecRow)
        ∈ reconcile db qty_tol price_tol) := by
  have part1 : ∀ (db : TypedDB) (dups : List (Option (List Char))) (qty_tol price_tol : ℚ)
      (inv_no po_no : Option (List Char)) (vendor : List Char),
      (db.invoices.find? (fun r => sqlEq? r.invoice_number inv_no)).isSome = true →
      db.purchase_orders.find? (fun p => sqlEq? p.po_number po_no && p.vendor = vendor) = none →
      reconcile_invoice db dups qty_tol price_tol inv_no po_no vendor
        = ⟨inv_no, po_no, vendor, "NO_PO".toList, 0, 0, "No matching PO".toList⟩ := by
    intro db dups qty_tol price_tol inv_no po_no vendor hinv hpo
    obtain ⟨r, hr⟩ := Option.isSome_iff_exists.mp hinv
    unfold reconcile_invoice
    simp only [hr, hpo]
  refine ⟨part1, ?_⟩
  intro db qty_tol price_tol i hi hinv hpo
  have heq := part1 db (computeDups db.invoices) qty_tol price_tol
    i.invoice_number i.po_number i.vendor hinv hpo
  unfold reconcile
  rw [← heq]
  exact List.mem_map_of_mem _ hi

/-- Claim C5 witness: in the concrete database with invoices INV-C and INV-D
and no purchase orders, INV-C reconciles to NO_PO and that record is among
the persisted reconciliation output. -/
theorem no_po_terminal_witness :
    reconcile_invoice noPoDB (computeDups noPoDB.invoices) 1 2 (ochs "INV-C") (ochs "PO-1")
        (chs "V")
      = ⟨ochs "INV-C", ochs "PO-1", chs "V", "NO_PO".toList, 0, 0, "No matching PO".toList⟩
  ∧ (⟨ochs "INV-C", ochs "PO-1", chs "V", "NO_PO".toList, 0, 0,
        "No matching PO".toList⟩ : RecRow)
      ∈ reconcile noPoDB 1 2 :=
  ⟨no_po_terminal.1 noPoDB (computeDups noPoDB.invoices) 1 2 (ochs "INV-C") (ochs "PO-1")
      (chs "V") (by decide) (by decide),
   no_po_terminal.2 noPoDB 1 2 dupInvC (by decide) (by decide) (by decide)⟩

/-- Claim C8: the classifier checks its case-insensitive keyword groups in the
fixed order GRN, INVOICE, PO with the first matching group winning and
UNKNOWN when none matches; in particular any text containing both the invoice
number marker and the goods receipt marker classifies as GRN. -/
theorem classify_fixed_priority :
    (∀ text : String,
      (containsSub ("goods receipt".toList) (lowerCh text.toList) = true
        ∨ containsSub ("grn".toList) (lowerCh text.toList) = true
        ∨ containsSub ("received qty".toList) (lowerCh text.toList) = true) →
      classify text = "GRN")
  ∧ (∀ text : String,
      containsSub ("goods receipt".toList) (lowerCh text.toList) = false →
      containsSub ("grn".toList) (lowerCh text.toList) = false →
      containsSub ("received qty".toList) (lowerCh text.toList) = false →
      (containsSub ("invoice number".toList) (lowerCh text.toList) = true
        ∨ containsSub ("invoice".toList) (lowerCh text.toList) = true) →
      classify text = "INVOICE")
  ∧ (∀ text : String,
      containsSub ("goods receipt".toList) (lowerCh text.toList) = false →
      containsSub ("grn".toList) (lowerCh text.toList) = false →
      containsSub ("received qty".toList) (lowerCh text.toList) = false →
      containsSub ("invoice number".toList) (lowerCh text.toList) = false →
      containsSub ("invoice".toList) (lowerCh text.toList) = false →
      (containsSub ("purchase order".toList) (lowerCh text.toList) = true
        ∨ containsSub ("po number".toList) (lowerCh text.toList) = true) →
      classify text = "PO")
  ∧ (∀ text : String,
      containsSub ("goods receipt".toList) (lowerCh text.toList) = false →
      containsSub ("grn".toList) (lowerCh text.toList) = false →
      containsSub ("received qty".toList) (lowerCh text.toList) = false →
      containsSub ("invoice number".toList) (lowerCh text.toList) = false →
      containsSub ("invoice".toList) (lowerCh text.toList) = false →
      containsSub ("purchase order".toList) (lowerCh text.toList) = false →
      containsSub ("po number".toList) (lowerCh text.toList) = false →
      classify text = "UNKNOWN")
  ∧ (∀ text : String,
      containsSub ("invoice number".toList) (lowerCh text.toList) = true →
      containsSub ("goods receipt".toList) (lowerCh text.toList) = true →
      classify text = "GRN") := by
  have grnCond : ∀ text : String,
      (containsSub ("goods receipt".toList) (lowerCh text.toList) = true
        ∨ containsSub ("grn".toList) (lowerCh text.toList) = true
        ∨ containsSub ("received qty".toList) (lowerCh text.toList) = true) →
      classify text = "GRN" := by
    intro text h
    have hc : (containsSub ("goods receipt".toList) (lowerCh text.toList)
        || containsSub ("grn".toList) (lowerCh text.toList)
        || containsSub ("received qty".toList) (lowerCh text.toList)) = true := by
      rcases h with h | h | h <;>
        simp only [h, Bool.true_or, Bool.or_true, Bool.false_or, Bool.or_false]
    simp only [classify]
    rw [hc]
    simp
  refine ⟨grnCond, ?_, ?_, ?_, ?_⟩
  · intro text h1 h2 h3 h
    have hc1 : (containsSub ("goods receipt".toList) (lowerCh text.toList)
        || containsSub ("grn".toList) (lowerCh text.toList)
        || containsSub ("received qty".toList) (lowerCh text.toList)) = false := by
      simp only [h1, h2, h3, Bool.or_false, Bool.false_or]
    have hc2 : (containsSub ("invoice number".toList) (lowerCh text.toList)
        || containsSub ("invoice".toList) (lowerCh text.toList)) = true := by
      rcases h with h | h <;>
        simp only [h, Bool.true_or, Bool.or_true, Bool.false_or, Bool.or_false]
    simp only [classify]
    rw [hc1, hc2]
    simp
  · intro text h1 h2 h3 h4 h5 h
    have hc1 : (containsSub ("goods receipt".toList) (lowerCh text.toList)
        || containsSub ("grn".toList) (lowerCh text.toList)
        || containsSub ("received qty".toList) (lowerCh text.toList)) = false := by
      simp only [h1, h2, h3, Bool.or_false, Bool.false_or]
    have hc2 : (containsSub ("invoice number".toList) (lowerCh text.toList)
        || containsSub ("invoice".toList) (lowerCh text.toList)) = false := by
      simp only [h4, h5, Bool.or_false, Bool.false_or]
    have hc3 : (containsSub ("purchase order".toList) (lowerCh text.toList)
        || containsSub ("po number".toList) (lowerCh text.toList)) = true := by
      rcases h with h | h <;>
        simp only [h, Bool.true_or, Bool.or_true, Bool.false_or, Bool.or_false]
    simp only [classify]
    rw [hc1, hc2, hc3]
    simp
  · intro text h1 h2 h3 h4 h5 h6 h7
    have hc1 : (containsSub ("goods receipt".toList) (lowerCh text.toList)
        || containsSub ("grn".toList) (lowerCh text.toList)
        || containsSub ("received qty".toList) (lowerCh text.toList)) = false := by
      simp only [h1, h2, h3, Bool.or_false, Bool.false_or]
    have hc2 : (containsSub ("invoice number".toList) (lowerCh text.toList)
        || containsSub ("invoice".toList) (lowerCh text.toList)) = false := by
      simp only [h4, h5, Bool.or_false, Bool.false_or]
    have hc3 : (containsSub ("purchase order".toList) (lowerCh text.toList)
        || containsSub ("po number".toList) (lowerCh text.toList)) = false := by
      simp only [h6, h7, Bool.or_false, Bool.false_or]
    simp only [classify]
    rw [hc1, hc2, hc3]
    simp
  · intro text h1 h2
    exact grnCond text (Or.inl h2)

/-- Claim C8 witness: a mixed-case text holding both markers classifies as
GRN. -/
theorem classify_fixed_priority_witness :
    classify "The Invoice Number INV-1 appears on Goods Receipt GR-9" = "GRN" :=
  classify_fixed_priority.2.2.2.2 "The Invoice Number INV-1 appears on Goods Receipt GR-9"
    (by decide) (by decide)

/-- Claim C2 amended: persisting a PO or GRN document whose header key already
exists leaves the header table unchanged (first write wins), while persisting
an invoice document replaces the header row for its key (latest write wins);
every line table row is written with INSERT OR REPLACE, so the stored line for
a key always reflects the latest persisted document (latest write wins for
po_lines, invoice_lines and grn_lines). -/
theorem persist_write_semantics :
    (∀ (db : TypedDB) (pn : Option (List Char)) (vendor country currency : List Char)
        (od : Option (List Char)) (total : ℚ) (items : List ExtractedItem),
      db.purchase_orders.any (fun x => sqlEq? x.po_number pn && x.vendor = vendor) = true →
      (persist_structured db (.po pn vendor country currency od total items)).purchase_orders
        = db.purchase_orders)
  ∧ (∀ (db : TypedDB) (gn pn : Option (List Char)) (vendor country : List Char)
        (gd : Option (List Char)) (items : List GrnItem),
      db.grns.any (fun x => sqlEq? x.grn_number gn) = true →
      (persist_structured db (.grn gn pn vendor country gd items)).grns = db.grns)
  ∧ (∀ (db : TypedDB) (n : List Char) (pn : Option (List Char))
        (vendor country currency : List Char) (idate : Option (List Char)) (total : ℚ)
        (items : List ExtractedItem),
      lookupInv
          (persist_structured db (.invoice (some n) pn vendor country currency idate total items))
          (some n)
        = some ⟨some n, pn, vendor, country, currency, idate, total⟩)
  ∧ (∀ (db : TypedDB) (n : List Char) (vendor country currency : List Char)
        (od : Option (List Char)) (total : ℚ) (it : ExtractedItem),
      lookupPOLine (persist_structured db (.po (some n) vendor country currency od total [it]))
          (some n) it.sku
        = some ⟨some n, it.sku, it.description, it.qty, it.unit_price⟩)
  ∧ (∀ (db : TypedDB) (n : List Char) (pn : Option (List Char))
        (vendor country currency : List Char) (idate : Option (List Char)) (total : ℚ)
        (it : ExtractedItem),
      lookupInvLine
          (persist_structured db (.invoice (some n) pn vendor country currency idate total [it]))
          (some n) it.sku
        = some ⟨some n, it.sku, it.description, it.qty, it.unit_price⟩)
  ∧ (∀ (db : TypedDB) (n : List Char) (pn : Option (List Char)) (vendor country : List Char)
        (gd : Option (List Char)) (it : GrnItem),
      lookupGRNLine (persist_structured db (.grn (some n) pn vendor country gd [it]))
          (some n) it.sku
        = some ⟨some n, it.sku, it.qty⟩) := by
  refine ⟨?_, ?_, ?_, ?_, ?_, ?_⟩
  · intro db pn vendor country currency od total items h
    simp [persist_structured, insertIgnorePO, h]
  · intro db gn pn vendor country gd items h
    simp [persist_structured, insertIgnoreGRN, h]
  · intro db n pn vendor country currency idate total items
    simp only [persist_structured, lookupInv, insertReplaceInv, List.find?_append,
      find?_filter_not_self, Option.none_or]
    simp [sqlEq?]
  · intro db n vendor country currency od total it
    simp only [persist_structured, lookupPOLine, List.foldl_cons, List.foldl_nil,
      insertReplacePOLine, List.find?_append, find?_filter_not_self, Option.none_or]
    simp [sqlEq?]
  · intro db n pn vendor country currency idate total it
    simp only [persist_structured, lookupInvLine, List.foldl_cons, List.foldl_nil,
      insertReplaceInvLine, List.find?_append, find?_filter_not_self, Option.none_or]
    simp [sqlEq?]
  · intro db n pn vendor country gd it
    simp only [persist_structured, lookupGRNLine, List.foldl_cons, List.foldl_nil,
      insertReplaceGRNLine, List.find?_append, find?_filter_not_self, Option.none_or]
    simp [sqlEq?]

/-- Claim C2 witness: concrete applications of the persistence semantics,
over the database already holding the first PO document. -/
theorem persist_write_semantics_witness :
    (persist_structured (persist_structured TypedDB.empty poDocFirst) poDocSecond).purchase_orders
        = (persist_structured TypedDB.empty poDocFirst).purchase_orders
  ∧ (persist_structured (persist_structured TypedDB.empty grnDocFirst) grnDocFirst).grns
        = (persist_structured TypedDB.empty grnDocFirst).grns
  ∧ lookupInv (persist_structured TypedDB.empty invDocFirst) (ochs "I1")
      = some ⟨ochs "I1", ochs "P1", chs "V", chs "US", chs "USD", ochs "2024-02-01", 5⟩
  ∧ lookupPOLine (persist_structured TypedDB.empty poDocFirst) (ochs "P1") (chs "S")
      = some ⟨ochs "P1", chs "S", chs "first", 1, 5⟩
  ∧ lookupInvLine (persist_structured TypedDB.empty invDocFirst) (ochs "I1") (chs "S")
      = some ⟨ochs "I1", chs "S", chs "line", 1, 5⟩
  ∧ lookupGRNLine (persist_structured TypedDB.empty grnDocFirst) (ochs "G1") (chs "S")
      = some ⟨ochs "G1", chs "S", 4⟩ :=
  ⟨persist_write_semantics.1 (persist_structured TypedDB.empty poDocFirst) (ochs "P1") (chs "V")
      (chs "US") (chs "USD") (ochs "2024-02-02") 6 [⟨chs "S", chs "second", 2, 6⟩] (by decide),
   persist_write_semantics.2.1 (persist_structured TypedDB.empty grnDocFirst) (ochs "G1")
      (ochs "P1") (chs "V") (chs "US") (ochs "2024-01-10") [⟨chs "S", 4⟩] (by decide),
   persist_write_semantics.2.2.1 TypedDB.empty ("I1".toList) (ochs "P1") (chs "V") (chs "US")
      (chs "USD") (ochs "2024-02-01") 5 [⟨chs "S", chs "line", 1, 5⟩],
   persist_write_semantics.2.2.2.1 TypedDB.empty ("P1".toList) (chs "V") (chs "US") (chs "USD")
      (ochs "2024-01-01") 5 ⟨chs "S", chs "first", 1, 5⟩,
   persist_write_semantics.2.2.2.2.1 TypedDB.empty ("I1".toList) (ochs "P1") (chs "V") (chs "US")
      (chs "USD") (ochs "2024-02-01") 5 ⟨chs "S", chs "line", 1, 5⟩,
   persist_write_semantics.2.2.2.2.2 TypedDB.empty ("G1".toList) (ochs "P1") (chs "V") (chs "US")
      (ochs "2024-01-10") ⟨chs "S", 4⟩⟩

lemma ingest_folder_singleton (db : IngestDB) (f : FileDesc) :
    ingest_folder db [f] = ingest_one db f := rfl

lemma ingest_one_counts (db : IngestDB) (f : FileDesc) :
    (ingest_one db f).2.ingested + (ingest_one db f).2.skipped + (ingest_one db f).2.errors
      = 1 := by
  simp only [ingest_one]
  split
  · rfl
  · split
    · rfl
    · split
      · rfl
      · split
        · rfl
        · rfl

/-- Claim C9: an unsupported extension increments only the skipped counter and
leaves the state unchanged; a failing read of a supported file increments only
the error counter and leaves the state unchanged; every file increments
exactly one counter, so the returned triple covers every file of the folder;
and processing a folder always continues with the remaining files after each
file, whatever its outcome. -/
theorem ingest_error_isolation :
    (∀ (db : IngestDB) (f : FileDesc), is_supported_file_type f.path = false →
      ingest_one db f = (db, ⟨0, 1, 0⟩))
  ∧ (∀ (db : IngestDB) (f : FileDesc), is_supported_file_type f.path = true →
      f.readOk = false → ingest_one db f = (db, ⟨0, 0, 1⟩))
  ∧ (∀ (db : IngestDB) (files : List FileDesc),
      (ingest_folder db files).2.ingested + (ingest_folder db files).2.skipped
        + (ingest_folder db files).2.errors = files.length)
  ∧ (∀ (db : IngestDB) (f : FileDesc) (rest : List FileDesc),
      ingest_folder db (f :: rest)
        = ((ingest_folder (ingest_one db f).1 rest).1,
           ⟨(ingest_one db f).2.ingested + (ingest_folder (ingest_one db f).1 rest).2.ingested,
            (ingest_one db f).2.skipped + (ingest_folder (ingest_one db f).1 rest).2.skipped,
            (ingest_one db f).2.errors + (ingest_folder (ingest_one db f).1 rest).2.errors⟩))
  ∧ (∀ (db : IngestDB) (f : FileDesc), is_supported_file_type f.path = true →
      f.readOk = true →
      db.documents.any (fun d => d.path = f.path || d.hash = file_hash f.raw) = false →
      regex_extract f.text.toList (classify f.text).toList = none →
      ingest_one db f = (db, ⟨0, 0, 1⟩)) := by
  refine ⟨?_, ?_, ?_, ?_, ?_⟩
  · intro db f h
    simp [ingest_one, h]
  · intro db f h1 h2
    simp [ingest_one, h1, h2]
  · intro db files
    induction files generalizing db with
    | nil => rfl
    | cons f rest ih =>
      have h1 := ingest_one_counts db f
      have h2 := ih (ingest_one db f).1
      simp only [ingest_folder, List.length_cons]
      omega
  · intro db f rest
    rfl
  · intro db f h1 h2 h3 h4
    have h5 : regex_extract f.text.data (classify f.text).data = none := h4
    simp [ingest_one, h1, h2, h3, h5]

/-- Claim C9 witness: the unsupported file is skipped, the broken file is an
error, and a three file folder returns counters summing to three. -/
theorem ingest_error_isolation_witness :
    ingest_one IngestDB.empty wordFile = (IngestDB.empty, ⟨0, 1, 0⟩)
  ∧ ingest_one IngestDB.empty brokenFile = (IngestDB.empty, ⟨0, 0, 1⟩)
  ∧ (ingest_folder IngestDB.empty [wordFile, brokenFile, invoiceFile]).2.ingested
      + (ingest_folder IngestDB.empty [wordFile, brokenFile, invoiceFile]).2.skipped
      + (ingest_folder IngestDB.empty [wordFile, brokenFile, invoiceFile]).2.errors = 3
  ∧ ingest_one IngestDB.empty badTotalFile = (IngestDB.empty, ⟨0, 0, 1⟩) :=
  ⟨ingest_error_isolation.1 IngestDB.empty wordFile (by decide),
   ingest_error_isolation.2.1 IngestDB.empty brokenFile (by decide) (by decide),
   ingest_error_isolation.2.2.1 IngestDB.empty [wordFile, brokenFile, invoiceFile],
   ingest_error_isolation.2.2.2.2 IngestDB.empty badTotalFile (by decide) (by decide) (by decide)
     (by decide)⟩

/-- Claim C7: a supported file whose chain succeeds and which matches no
stored document by path or hash is ingested exactly once, appending one
document row; a second pass over the same file is skipped, changing neither
the counters beyond one skip nor the document store; and a match on either
the stored path or the content hash alone already causes the skip. -/
theorem ingest_duplicate_idempotent :
    (∀ (db : IngestDB) (f : FileDesc) (parsed : ExtractedDoc),
      is_supported_file_type f.path = true → f.readOk = true →
      regex_extract f.text.toList (classify f.text).toList = some parsed →
      db.documents.any (fun d => d.path = f.path || d.hash = file_hash f.raw) = false →
      ingest_folder db [f]
          = (⟨db.documents
                ++ [⟨f.path, file_hash f.raw, (classify f.text).toList, docCountry parsed,
                      docVendor parsed⟩],
              persist_structured db.typed parsed⟩, ⟨1, 0, 0⟩)
        ∧ ingest_folder (ingest_folder db [f]).1 [f] = ((ingest_folder db [f]).1, ⟨0, 1, 0⟩)
        ∧ (ingest_folder db [f]).1.documents.length = db.documents.length + 1)
  ∧ (∀ (db : IngestDB) (f : FileDesc),
      is_supported_file_type f.path = true → f.readOk = true →
      db.documents.any (fun d => d.path = f.path || d.hash = file_hash f.raw) = true →
      ingest_one db f = (db, ⟨0, 1, 0⟩)) := by
  have skipOnDup : ∀ (db : IngestDB) (f : FileDesc),
      is_supported_file_type f.path = true → f.readOk = true →
      db.documents.any (fun d => d.path = f.path || d.hash = file_hash f.raw) = true →
      ingest_one db f = (db, ⟨0, 1, 0⟩) := by
    intro db f hs hr hdup
    simp [ingest_one, hs, hr, hdup]
  refine ⟨?_, skipOnDup⟩
  intro db f parsed hs hr hx hdup
  have hx2 : regex_extract f.text.data (classify f.text).data = some parsed := hx
  have hrow : ingest_one db f
      = (⟨db.documents
            ++ [⟨f.path, file_hash f.raw, (classify f.text).toList, docCountry parsed,
                  docVendor parsed⟩],
          persist_structured db.typed parsed⟩, ⟨1, 0, 0⟩) := by
    simp [ingest_one, hs, hr, hdup, hx2]
  have h1 : ingest_folder db [f]
      = (⟨db.documents
            ++ [⟨f.path, file_hash f.raw, (classify f.text).toList, docCountry parsed,
                  docVendor parsed⟩],
          persist_structured db.typed parsed⟩, ⟨1, 0, 0⟩) := by
    rw [ingest_folder_singleton]
    exact hrow
  refine ⟨h1, ?_, ?_⟩
  · have hdup2 : (⟨db.documents
        ++ [⟨f.path, file_hash f.raw, (classify f.text).toList, docCountry parsed,
              docVendor parsed⟩],
        persist_structured db.typed parsed⟩ : IngestDB).documents.any
          (fun d => d.path = f.path || d.hash = file_hash f.raw) = true := by
      simp [List.any_append]
    have hskip := skipOnDup _ f hs hr hdup2
    rw [h1, ingest_folder_singleton]
    exact hskip
  · rw [h1]
    simp

/-- Claim C7 witness: ingesting the invoice file into the empty store and
running the pass again. -/
theorem ingest_duplicate_idempotent_witness :
    ingest_folder (ingest_folder IngestDB.empty [invoiceFile]).1 [invoiceFile]
        = ((ingest_folder IngestDB.empty [invoiceFile]).1, ⟨0, 1, 0⟩)
  ∧ (ingest_folder IngestDB.empty [invoiceFile]).1.documents.length = 1 := by
  have h := ingest_duplicate_idempotent.1 IngestDB.empty invoiceFile invoiceFileDoc
    (by decide) (by decide) (by decide) (by decide)
  exact ⟨h.2.1, h.2.2⟩

lemma reconcile_line_keeps_qty (db : TypedDB) (po_no : Option (List Char))
    (po_map : List (List Char × (ℚ × ℚ))) (qt pt : ℚ) (st : RecState)
    (e : List Char × (ℚ × ℚ)) (h : st.status = "QTY_VAR".toList) :
    (reconcile_line db po_no po_map qt pt st e).status = "QTY_VAR".toList := by
  have hne : "QTY_VAR".toList ≠ "MATCH".toList := by decide
  simp only [reconcile_line]
  by_cases hq : |e.2.1 - grn_qty_get db po_no e.1| > qt
  · simp [hq, hne]
  · simp [hq, h, hne]

lemma reconcile_line_sets_qty (db : TypedDB) (po_no : Option (List Char))
    (po_map : List (List Char × (ℚ × ℚ))) (qt pt : ℚ) (st : RecState)
    (e : List Char × (ℚ × ℚ)) (htr : |e.2.1 - grn_qty_get db po_no e.1| > qt) :
    (reconcile_line db po_no po_map qt pt st e).status = "QTY_VAR".toList := by
  have hne : "QTY_VAR".toList ≠ "MATCH".toList := by decide
  simp only [reconcile_line]
  simp [htr, hne]

lemma foldl_qty_persist (db : TypedDB) (po_no : Option (List Char))
    (po_map : List (List Char × (ℚ × ℚ))) (qt pt : ℚ) (l : List (List Char × (ℚ × ℚ))) :
    ∀ st : RecState, st.status = "QTY_VAR".toList →
      (l.foldl (reconcile_line db po_no po_map qt pt) st).status = "QTY_VAR".toList := by
  induction l with
  | nil => intro st h; exact h
  | cons e rest ih =>
    intro st h
    simp only [List.foldl_cons]
    exact ih _ (reconcile_line_keeps_qty db po_no po_map qt pt st e h)

lemma foldl_qty_trigger (db : TypedDB) (po_no : Option (List Char))
    (po_map : List (List Char × (ℚ × ℚ))) (qt pt : ℚ) (l : List (List Char × (ℚ × ℚ)))
    (htrig : ∃ e ∈ l, |e.2.1 - grn_qty_get db po_no e.1| > qt) :
    ∀ st : RecState,
      (l.foldl (reconcile_line db po_no po_map qt pt) st).status = "QTY_VAR".toList := by
  induction l with
  | nil =>
    rcases htrig with ⟨e, he, _⟩
    simp at he
  | cons a rest ih =>
    intro st
    rcases htrig with ⟨e, he, htr⟩
    rcases List.mem_cons.mp he with rfl | hmem
    · simp only [List.foldl_cons]
      exact foldl_qty_persist db po_no po_map qt pt rest _
        (reconcile_line_sets_qty db po_no po_map qt pt st e htr)
    · simp only [List.foldl_cons]
      exact ih ⟨e, hmem, htr⟩ _

/-- Claim C1: for an invoice whose data and purchase order are present, which
is in the duplicate set or lacks a goods receipt, any invoice line whose
quantity differs from the aggregated received quantity for its sku by more
than the quantity tolerance forces the persisted status to QTY_VAR,
overwriting DUP_INVOICE or MISSING_GRN. -/
theorem qty_var_overrides (db : TypedDB) (dups : List (Option (List Char)))
    (qty_tol price_tol : ℚ) (inv_no po_no : Option (List Char)) (vendor : List Char)
    (invRow : InvRow) (poRow : PORow)
    (hinv : db.invoices.find? (fun r => sqlEq? r.invoice_number inv_no) = some invRow)
    (hpo : db.purchase_orders.find?
      (fun p => sqlEq? p.po_number po_no && p.vendor = vendor) = some poRow)
    (_hflag : inv_no ∈ dups ∨ has_grn db po_no vendor = false)
    (htrig : ∃ e ∈ invLineDict db inv_no, |e.2.1 - grn_qty_get db po_no e.1| > qty_tol) :
    (reconcile_invoice db dups qty_tol price_tol inv_no po_no vendor).status
      = "QTY_VAR".toList := by
  have hne : "QTY_VAR".toList ≠ "MATCH".toList := by decide
  have hstF := foldl_qty_trigger db po_no (poLineDict db po_no) qty_tol price_tol
    (invLineDict db inv_no) htrig
  simp only [reconcile_invoice]
  simp only [hinv, hpo]
  simp only [hstF]
  simp [hne]

/-- Claim C1 witness: the duplicate invoice INV-C, billing 20 of sku X where
the GRN received 10, reconciles to QTY_VAR rather than DUP_INVOICE. -/
theorem qty_var_overrides_witness :
    (reconcile_invoice dupQtyDB (computeDups dupQtyDB.invoices) 1 2 (ochs "INV-C")
        (ochs "PO-1") (chs "V")).status = "QTY_VAR".toList :=
  qty_var_overrides dupQtyDB (computeDups dupQtyDB.invoices) 1 2 (ochs "INV-C") (ochs "PO-1")
    (chs "V") dupInvC scenPO (by decide) (by decide) (by decide) (by decide)

lemma collapseWsAux_no_nl : ∀ (b : Bool) (l : List Char), '\n' ∉ collapseWsAux b l := by
  intro b l
  induction l generalizing b with
  | nil => simp [collapseWsAux]
  | cons c rest ih =>
    by_cases hc : isPySpace c
    · cases b <;> simp [collapseWsAux, hc, ih]
    · have hcn : ¬('\n' = c) := by
        intro hh
        exact hc (hh ▸ (by decide : isPySpace '\n' = true))
      simp [collapseWsAux, hc, ih, hcn]

lemma dehyphAux_subset : ∀ (fuel : Nat) (l : List Char) (c : Char),
    c ∈ dehyphAux fuel l → c ∈ l := by
  intro fuel
  induction fuel with
  | zero => intro l c h; simpa [dehyphAux] using h
  | succ fuel ih =>
    intro l c h
    cases l with
    | nil => simp [dehyphAux] at h
    | cons a rest =>
      by_cases ha : isWordCh a
      · cases rest with
        | nil =>
          simp [dehyphAux, ha] at h
          rcases h with rfl | h2
          · exact List.mem_cons_self _ _
          · exact absurd (ih _ _ h2) (by simp)
        | cons b rest2 =>
          simp only [dehyphAux, if_pos ha] at h
          by_cases hb : b = '-'
          · rw [if_pos hb] at h
            subst hb
            by_cases hsp : (rest2.takeWhile isPySpace).isEmpty
            · simp only [hsp, Bool.not_true, Bool.false_eq_true, if_false] at h
              rcases List.mem_cons.mp h with rfl | h2
              · exact List.mem_cons_self _ _
              · exact List.mem_cons_of_mem _ (ih _ _ h2)
            · rw [Bool.not_eq_true] at hsp
              simp only [hsp, Bool.not_false, if_true] at h
              cases hrem : rest2.dropWhile isPySpace with
              | nil =>
                simp only [hrem] at h
                rcases List.mem_cons.mp h with rfl | h2
                · exact List.mem_cons_self _ _
                · exact List.mem_cons_of_mem _ (ih _ _ h2)
              | cons w rest3 =>
                simp only [hrem] at h
                by_cases hw : isWordCh w
                · rw [if_pos hw] at h
                  rcases List.mem_cons.mp h with rfl | h2
                  · exact List.mem_cons_self _ _
                  rcases List.mem_cons.mp h2 with rfl | h3
                  · refine List.mem_cons_of_mem _ (List.mem_cons_of_mem _ ?_)
                    refine mem_of_mem_dropWhileCh isPySpace _ _ ?_
                    rw [hrem]
                    exact List.mem_cons_self _ _
                  · refine List.mem_cons_of_mem _ (List.mem_cons_of_mem _ ?_)
                    refine mem_of_mem_dropWhileCh isPySpace _ _ ?_
                    rw [hrem]
                    exact List.mem_cons_of_mem _ (ih _ _ h3)
                · rw [if_neg hw] at h
                  rcases List.mem_cons.mp h with rfl | h2
                  · exact List.mem_cons_self _ _
                  · exact List.mem_cons_of_mem _ (ih _ _ h2)
          · rw [if_neg hb] at h
            rcases List.mem_cons.mp h with rfl | h2
            · exact List.mem_cons_self _ _
            · exact List.mem_cons_of_mem _ (ih _ _ h2)
      · simp only [dehyphAux, if_neg ha] at h
        rcases List.mem_cons.mp h with rfl | h2
        · exact List.mem_cons_self _ _
        · exact List.mem_cons_of_mem _ (ih _ _ h2)

lemma collapseBlankAux_of_no_nl : ∀ (fuel : Nat) (l : List Char),
    '\n' ∉ l → collapseBlankAux fuel l = l := by
  intro fuel
  induction fuel with
  | zero => intro l _; rfl
  | succ fuel ih =>
    intro l h
    cases l with
    | nil => rfl
    | cons c rest =>
      have hc : ¬(c = '\n') := by
        rintro rfl
        exact h (List.mem_cons_self _ _)
      simp only [collapseBlankAux, if_neg hc]
      rw [ih rest (fun hm => h (List.mem_cons_of_mem _ hm))]

lemma colonSpaceAux_no_nl : ∀ (fuel : Nat) (l : List Char),
    '\n' ∉ l → '\n' ∉ colonSpaceAux fuel l := by
  intro fuel
  induction fuel with
  | zero => intro l h; simpa [colonSpaceAux] using h
  | succ fuel ih =>
    intro l h
    cases l with
    | nil => simp [colonSpaceAux]
    | cons a rest =>
      have ha : ¬('\n' = a) := fun hh => h (hh ▸ List.mem_cons_self _ _)
      have hrest : '\n' ∉ rest := fun hm => h (List.mem_cons_of_mem _ hm)
      simp only [colonSpaceAux]
      by_cases haw : isWordCh a
      · rw [if_pos haw]
        cases rest with
        | nil =>
          intro hm
          rcases List.mem_cons.mp hm with hh | hm2
          · exact ha hh
          · exact ih [] (by simp) hm2
        | cons b rest2 =>
          cases rest2 with
          | nil =>
            intro hm
            rcases List.mem_cons.mp hm with hh | hm2
            · exact ha hh
            · exact ih (b :: []) hrest hm2
          | cons w rest3 =>
            dsimp only
            by_cases hb : b = ':'
            · rw [if_pos hb]
              by_cases hw : isWordCh w
              · rw [if_pos hw]
                intro hm
                rcases List.mem_cons.mp hm with hh | hm2
                · exact ha hh
                rcases List.mem_cons.mp hm2 with hh | hm3
                · exact absurd hh (by decide)
                rcases List.mem_cons.mp hm3 with hh | hm4
                · exact absurd hh (by decide)
                rcases List.mem_cons.mp hm4 with hh | hm5
                · exact hrest (hh ▸ List.mem_cons_of_mem _ (List.mem_cons_self _ _))
                · have hr3 : '\n' ∉ rest3 := fun hx =>
                    hrest (List.mem_cons_of_mem _ (List.mem_cons_of_mem _ hx))
                  exact ih rest3 hr3 hm5
              · rw [if_neg hw]
                intro hm
                rcases List.mem_cons.mp hm with hh | hm2
                · exact ha hh
                · exact ih (b :: w :: rest3) hrest hm2
            · rw [if_neg hb]
              intro hm
              rcases List.mem_cons.mp hm with hh | hm2
              · exact ha hh
              · exact ih (b :: w :: rest3) hrest hm2
      · rw [if_neg haw]
        intro hm
        rcases List.mem_cons.mp hm with hh | hm2
        · exact ha hh
        · exact ih rest hrest hm2

lemma pipeSpaceAux_no_nl : ∀ (fuel : Nat) (l : List Char),
    '\n' ∉ l → '\n' ∉ pipeSpaceAux fuel l := by
  intro fuel
  induction fuel with
  | zero => intro l h; simpa [pipeSpaceAux] using h
  | succ fuel ih =>
    intro l h
    cases l with
    | nil => simp [pipeSpaceAux]
    | cons c rest =>
      have hc : ¬('\n' = c) := fun hh => h (hh ▸ List.mem_cons_self _ _)
      have hrest : '\n' ∉ rest := fun hm => h (List.mem_cons_of_mem _ hm)
      simp only [pipeSpaceAux]
      split
      · intro hm
        rcases List.mem_cons.mp hm with hh | hm2
        · exact absurd hh (by decide)
        rcases List.mem_cons.mp hm2 with hh | hm3
        · exact absurd hh (by decide)
        rcases List.mem_cons.mp hm3 with hh | hm4
        · exact absurd hh (by decide)
        · have : '\n' ∉ rest.dropWhile isPySpace := fun hx =>
            hrest (mem_of_mem_dropWhileCh _ _ _ hx)
          exact ih _ this hm4
      · intro hm
        rcases List.mem_cons.mp hm with hh | hm2
        · exact hc hh
        · exact ih rest hrest hm2

lemma stripCh_subset (l : List Char) (c : Char) (h : c ∈ stripCh l) : c ∈ l := by
  simp only [stripCh] at h
  rw [List.mem_reverse] at h
  have h2 := mem_of_mem_dropWhileCh _ _ _ h
  rw [List.mem_reverse] at h2
  exact mem_of_mem_dropWhileCh _ _ _ h2

/-- Claim C10: the normalization applied to PDF and image derived text yields
output without any newline character, since its first substitution collapses
every whitespace run, line breaks included, to a single space and no later
step reintroduces one; the reader hands plain text files through verbatim and
routes PDF and image text through this normalization, so PDF and image
documents reach the classifier and the line based extractor as a single line
while text file line structure is preserved. -/
theorem pdf_image_text_single_line (s : String) :
    '\n' ∉ (preprocess_pdf_text s).toList
  ∧ read_document_content .txt s = .ok s
  ∧ read_document_content .pdf s = .ok (preprocess_pdf_text s)
  ∧ read_document_content .image s = .ok (preprocess_pdf_text s)
  ∧ read_document_content .other s = .error ("UnsupportedFileType".toList) := by
  refine ⟨?_, rfl, rfl, rfl, rfl⟩
  simp only [preprocess_pdf_text]
  by_cases he : s.toList.isEmpty
  · rw [if_pos he]
    decide
  · rw [if_neg he]
    have h0 : '\n' ∉ collapseWs s.toList := collapseWsAux_no_nl false _
    have h1 : '\n' ∉ dehyph (collapseWs s.toList) :=
      fun hm => h0 (dehyphAux_subset _ _ _ hm)
    have h2 : collapseBlank (dehyph (collapseWs s.toList)) = dehyph (collapseWs s.toList) :=
      collapseBlankAux_of_no_nl _ _ h1
    have h3 : '\n' ∉ colonSpace (collapseBlank (dehyph (collapseWs s.toList))) := by
      rw [h2]
      exact colonSpaceAux_no_nl _ _ h1
    have h4 : '\n' ∉ pipeSpace (colonSpace (collapseBlank (dehyph (collapseWs s.toList)))) :=
      pipeSpaceAux_no_nl _ _ h3
    intro hm
    exact h4 (stripCh_subset _ _ hm)

end EmaIngest
